import Mathlib

/-!
Verification development for the photon-counting correction engine of
`corgidrp` (`corgidrp/photon_counting.py`).

The numeric code operates pointwise on numpy arrays of floats; we embed the
per-pixel computations as functions over `ℝ` (the standard idealisation of
IEEE doubles: rounding is ignored, and the division convention `x / 0 = 0`
of Lean replaces the float `nan`/`inf` values, which in the modelled
pipeline only ever arise as `0 / 0` at pixels that the code masks out and
fills with `0` anyway, so the end-to-end values agree).  Masked arrays
(`np.ma`) are embedded as value/mask pairs; numpy's domain mask for a
division masks exactly where the denominator vanishes (the float tolerance
is idealised to zero).  Arrays of pixels are embedded as functions from an
index type `ι`; a stack of frames is a `List` of frames.  Exceptions
(`PhotonCountException`, with their message strings) are embedded with
`Except String`.
-/

open Real

noncomputable section

namespace Corgidrp

variable {ι : Type}

/-- Per-pixel digitizer: `pc_image[e_image > thresh] = 1`, zero elsewhere
(from `photon_count`, lines 56-57 of `photon_counting.py`). -/
def photonCountPix (e thresh : ℝ) : ℕ :=
  if thresh < e then 1 else 0

/-- Input to `photon_count`: `np.array(e_image)` is either zero-dimensional
(a scalar, `len(shape) == 0`) or a genuine array (modelled one-dimensional,
which is the distinction the shape check makes). -/
inductive EImage where
  | scalar (x : ℝ)
  | arr (xs : List ℝ)

/-- `photon_count(e_image, thresh)`: raises
`PhotonCountException('e_image must have length > 0')` when the cast input
is zero-dimensional, otherwise thresholds every element. -/
def photon_count (e_image : EImage) (thresh : ℝ) : Except String (List ℕ) :=
  match e_image with
  | .scalar _ => .error ("e_image must have length > 0")
  | .arr xs => .ok (xs.map (fun x => photonCountPix x thresh))

/-- `varL23(g, L, T, N)`: expected variance after photometric correction. -/
def varL23 (g L T N : ℝ) : ℝ :=
  let Const := 6 / (6 + L * (6 + L * (3 + L)))
  let eThresh := Const * (Real.exp (-T / g) * L * (2 * g ^ 2 * (6 + L * (3 + L)) +
      2 * g * L * (3 + L) * T + L ^ 2 * T ^ 2)) / (12 * g ^ 2)
  let std_dev := Real.sqrt (N * eThresh * (1 - eThresh))
  std_dev ^ 2 * ((Real.exp (T / g) / N) +
    2 * ((Real.exp (2 * T / g) * (g - T)) / (2 * g * N ^ 2)) * (N * eThresh) +
    3 * ((Real.exp (3 * T / g) * (4 * g ^ 2 - 8 * g * T + 5 * T ^ 2)) /
      (12 * g ^ 2 * N ^ 3)) * (N * eThresh) ^ 2) ^ 2

/-- `calc_lam_approx(nobs, nfr, t, g)` per pixel: first-order guess
`-log(init)` where `init = 1 - (nobs/nfr) * exp(t/g) > 0`, zeroth-order
`nobs/nfr` elsewhere. -/
def calc_lam_approx (nobs nfr t g : ℝ) : ℝ :=
  let init := 1 - (nobs / nfr) * Real.exp (t / g)
  if 0 < init then -Real.log init else nobs / nfr

/-- `_calc_func(nobs, nfr, t, g, lam)`: Newton objective
`nfr * epsilon_prime - nobs`. -/
def calc_func (nobs nfr t g lam : ℝ) : ℝ :=
  let epsilon_prime := (lam * (2 * g ^ 2 * (6 + lam * (3 + lam)) +
      2 * g * lam * (3 + lam) * t + lam ^ 2 * t ^ 2)) /
      (2 * Real.exp (t / g) * g ^ 2 * (6 + lam * (6 + lam * (3 + lam))))
  nfr * epsilon_prime - nobs

/-- `_calc_dfunc(nfr, t, g, lam)`: derivative of the Newton objective. -/
def calc_dfunc (nfr t g lam : ℝ) : ℝ :=
  (lam * nfr * (2 * g ^ 2 * (3 + 2 * lam) + 2 * g * lam * t + 2 * g * (3 + lam) * t +
      2 * lam * t ^ 2)) /
    (2 * Real.exp (t / g) * g ^ 2 * (6 + lam * (6 + lam * (3 + lam)))) -
  (lam * (6 + lam * (3 + lam) + lam * (3 + 2 * lam)) * nfr *
      (2 * g ^ 2 * (6 + lam * (3 + lam)) + 2 * g * lam * (3 + lam) * t + lam ^ 2 * t ^ 2)) /
    (2 * Real.exp (t / g) * g ^ 2 * (6 + lam * (6 + lam * (3 + lam))) ^ 2) +
  (nfr * (2 * g ^ 2 * (6 + lam * (3 + lam)) + 2 * g * lam * (3 + lam) * t + lam ^ 2 * t ^ 2)) /
    (2 * Real.exp (t / g) * g ^ 2 * (6 + lam * (6 + lam * (3 + lam))))

/-- One entry of the masked array `lam_est_m` of `lam_newton_fit`: the
underlying data value and the mask.  In-place masked arithmetic leaves the
data of a masked entry unchanged. -/
structure MaskedVal where
  d : ℝ
  m : Prop

open Classical in
/-- One Newton iteration of `lam_newton_fit` at one pixel:
`lam_est_m -= func / dfunc`, where `func` is masked wherever `nobs == 0`
(the mask of `nobs_m`) and the masked division `func / dfunc` is also
masked wherever `dfunc` vanishes; the data of entries masked in the result
is left unchanged. -/
def newtonStep (nobs nfr t g : ℝ) (s : MaskedVal) : MaskedVal :=
  let F := calc_func nobs nfr t g s.d
  let D := calc_dfunc nfr t g s.d
  let m' := s.m ∨ nobs = 0 ∨ D = 0
  { d := if m' then s.d else s.d - F / D, m := m' }

/-- `niter` Newton iterations at one pixel. -/
def newtonIterate (nobs nfr t g : ℝ) : ℕ → MaskedVal → MaskedVal
  | 0, s => s
  | n + 1, s => newtonIterate nobs nfr t g n (newtonStep nobs nfr t g s)

/-- The per-pixel state of `lam_est_m` after the Newton loop of
`lam_newton_fit`, starting from `lam0` masked where `lam0 == 0`. -/
def lamNewtonFinal (nobs nfr : ι → ℝ) (t g : ℝ) (lam0 : ι → ℝ) (niter : ℕ)
    (i : ι) : MaskedVal :=
  newtonIterate (nobs i) (nfr i) t g niter ⟨lam0 i, lam0 i = 0⟩

/-- The message of the fatal numeric error of `lam_newton_fit`. -/
def negPhotonsMsg : String :=
  "negative number of photon counts; try decreasing the frametime"

open Classical in
/-- `lam_newton_fit(nobs, nfr, t, g, lam0, niter)`: iterate Newton's method,
raise the fatal numeric error when `np.nanmin(lam_est_m.data) < 0`
(some pixel's underlying data is negative), else fill masked pixels with 0. -/
def lam_newton_fit (nobs nfr : ι → ℝ) (t g : ℝ) (lam0 : ι → ℝ) (niter : ℕ) :
    Except String (ι → ℝ) :=
  let fin := lamNewtonFinal nobs nfr t g lam0 niter
  if ∃ i, (fin i).d < 0 then .error negPhotonsMsg
  else .ok (fun i => if (fin i).m then 0 else (fin i).d)

/-- `corr_photon_count(nobs, nfr, t, g, niter)`: initial guess from
`calc_lam_approx`, then `lam_newton_fit`. -/
def corr_photon_count (nobs nfr : ι → ℝ) (t g : ℝ) (niter : ℕ) :
    Except String (ι → ℝ) :=
  lam_newton_fit nobs nfr t g (fun i => calc_lam_approx (nobs i) (nfr i) t g) niter

/-- One frame of the input dataset: per-pixel data, error and data-quality
planes (`err` is the first error plane `all_err[:,0]`), together with the
header fields `get_pc_mean` reads (`EXPTIME`, `CMDGAIN`, `KGAIN`, `RN`,
optional `EMGAIN_M`/`EMGAIN_A`, and the primary-header `VISTYPE`). -/
structure Frame (ι : Type) where
  data : ι → ℝ
  err : ι → ℝ
  dq : ι → ℕ
  exptime : ℝ
  cmdgain : ℝ
  kgain : ℝ
  rn : ℝ
  emgain_m : Option ℝ
  emgain_a : Option ℝ
  vistype : String

instance : Inhabited (Frame ι) :=
  ⟨⟨fun _ => 0, fun _ => 0, fun _ => 0, 0, 0, 0, 0, none, none, ""⟩⟩

/-- The check made by the first `split_dataset` call: all frames share
`EXPTIME`, `CMDGAIN`, `KGAIN` and `RN` (otherwise the split yields more
than one group and `get_pc_mean` raises). -/
def cfgUniform (ds : List (Frame ι)) : Prop :=
  ∀ f ∈ ds, ∀ f' ∈ ds,
    f.exptime = f'.exptime ∧ f.cmdgain = f'.cmdgain ∧ f.kgain = f'.kgain ∧ f.rn = f'.rn

/-- Valid-frame count `nframes` at a pixel: the number of frames whose DQ
flag is zero there (`bool_map` turns nonzero DQ into `nan`, which `nansum`
drops). -/
def stackNfr (stack : List (Frame ι)) (i : ι) : ℝ :=
  ((stack.filter (fun f => f.dq i = 0)).length : ℝ)

/-- Co-added photon-counted frame `frame_pc_coadded` at a pixel: the sum of
the digitized values over the frames whose DQ flag is zero there. -/
def stackNobs (stack : List (Frame ι)) (thresh : ℝ) (i : ι) : ℝ :=
  ((stack.filter (fun f => f.dq i = 0)).map
    (fun f => (photonCountPix (f.data i) thresh : ℝ))).sum

/-- `frame_pc_coadded_up`: as `stackNobs` but digitizing `data + err`. -/
def stackNobsUp (stack : List (Frame ι)) (thresh : ℝ) (i : ι) : ℝ :=
  ((stack.filter (fun f => f.dq i = 0)).map
    (fun f => (photonCountPix (f.data i + f.err i) thresh : ℝ))).sum

/-- `frame_pc_coadded_low`: as `stackNobs` but digitizing `data - err`. -/
def stackNobsLow (stack : List (Frame ι)) (thresh : ℝ) (i : ι) : ℝ :=
  ((stack.filter (fun f => f.dq i = 0)).map
    (fun f => (photonCountPix (f.data i - f.err i) thresh : ℝ))).sum

/-- `np.average(dataset.all_data)` over every frame and pixel of a stack. -/
def stackAverage [Fintype ι] (stack : List (Frame ι)) : ℝ :=
  ((stack.map (fun f => ∑ i, f.data i)).sum) /
    ((stack.length : ℝ) * (Fintype.card ι : ℝ))

/-- EM-gain resolution priority of `get_pc_mean`: `EMGAIN_M` if present,
else `EMGAIN_A`, else `CMDGAIN`, read from the stack's first frame. -/
def stackEmGain (stack : List (Frame ι)) : ℝ :=
  (stack.headI.emgain_m).getD ((stack.headI.emgain_a).getD stack.headI.cmdgain)

/-- Advisory warning: threshold at or above the EM gain. -/
def warnThreshGain : String :=
  "thresh should be less than em_gain for effective photon counting"

/-- Advisory warning: mean counts per pixel above 0.1. -/
def warnAvg : String :=
  "average # of photons/pixel is > 0.1.  Decrease frame time to get lower average # of photons/pixel."

/-- Advisory warning: non-positive read noise. -/
def warnReadNoise : String :=
  "read noise should be greater than 0 for effective photon counting"

/-- Advisory warning: threshold below four times the read noise. -/
def warnNoiseFloor : String :=
  "thresh should be at least 4 or 5 times read_noise for accurate photon counting"

open Classical in
/-- The advisory warnings `get_pc_mean` emits for one stack, in source
order: `thresh >= em_gain`, `np.average(all_data) > 0.1`,
`read_noise <= 0`, `thresh < 4 * read_noise`. -/
def stackWarnings [Fintype ι] (stack : List (Frame ι)) (T_factor : ℝ) : List String :=
  (if stackEmGain stack ≤ T_factor * stack.headI.rn then [warnThreshGain] else []) ++
  (if 0.1 < stackAverage stack then [warnAvg] else []) ++
  (if stack.headI.rn ≤ 0 then [warnReadNoise] else []) ++
  (if T_factor * stack.headI.rn < 4 * stack.headI.rn then [warnNoiseFloor] else [])

/-- Per-stack output of the loop body of `get_pc_mean`: the corrected mean
map appended to `pc_means`, the error map appended to `errs`, the DQ map
appended to `dqs`, and the advisory warnings issued. -/
structure StackOut (ι : Type) where
  mean : ι → ℝ
  err : ι → ℝ
  dq : ι → ℕ
  warnings : List String

open Classical in
/-- The loop body of `get_pc_mean` for one stack: derive
`thresh = T_factor * read_noise` (fatal if negative), check `niter >= 1`
(fatal otherwise), resolve the EM gain, digitize and co-add the stack and
its `data ± err` bracket variants, run `corr_photon_count` on all three,
and combine the bracket spread with the `varL23` variance into the error
map; the DQ map flags pixels with no valid frame. -/
def processStack [Fintype ι] (stack : List (Frame ι)) (T_factor : ℝ) (niter : ℕ) :
    Except String (StackOut ι) :=
  -- read_noise = stack.headI.rn, thresh = T_factor * read_noise,
  -- em_gain = stackEmGain stack (inlined below);
  -- err combines up = mean_up + pc_variance and low = mean_low - pc_variance
  -- as max (up - mean) (mean - low), with
  -- pc_variance = varL23 em_gain mean thresh nframes.
  if T_factor * stack.headI.rn < 0 then .error ("thresh must be nonnegative")
  else if niter < 1 then .error ("niter must be an integer greater than 0")
  else
    match corr_photon_count (stackNobs stack (T_factor * stack.headI.rn)) (stackNfr stack)
        (T_factor * stack.headI.rn) (stackEmGain stack) niter with
    | .error e => .error e
    | .ok mean =>
      match corr_photon_count (stackNobsUp stack (T_factor * stack.headI.rn)) (stackNfr stack)
          (T_factor * stack.headI.rn) (stackEmGain stack) niter with
      | .error e => .error e
      | .ok mean_up =>
        match corr_photon_count (stackNobsLow stack (T_factor * stack.headI.rn)) (stackNfr stack)
            (T_factor * stack.headI.rn) (stackEmGain stack) niter with
        | .error e => .error e
        | .ok mean_low =>
          .ok { mean := mean,
                err := fun i => max ((mean_up i + varL23 (stackEmGain stack) (mean i)
                    (T_factor * stack.headI.rn) (stackNfr stack i)) - mean i)
                  (mean i - (mean_low i - varL23 (stackEmGain stack) (mean i)
                    (T_factor * stack.headI.rn) (stackNfr stack i))),
                dq := fun i => if stackNfr stack i = 0 then 1 else 0,
                warnings := stackWarnings stack T_factor }

open Classical in
/-- `combined_pc_mean`: dark-subtracted mean with negative pixels set to 0
(`combined_pc_mean[combined_pc_mean < 0] = 0`). -/
def combineMeans (m0 m1 : ι → ℝ) : ι → ℝ := fun i =>
  if m0 i - m1 i < 0 then 0 else m0 i - m1 i

/-- `combined_err = np.sqrt(errs[0]**2 + errs[1]**2)`. -/
def combineErrs (e0 e1 : ι → ℝ) : ι → ℝ := fun i =>
  Real.sqrt (e0 i ^ 2 + e1 i ^ 2)

/-- `combined_dq = np.bitwise_or(dqs[0], dqs[1])`. -/
def combineDqs (q0 q1 : ι → ℕ) : ι → ℕ := fun i => q0 i ||| q1 i

/-- The frames whose `VISTYPE` is `DARK` (the dark sub-stack). -/
def darkStack (ds : List (Frame ι)) : List (Frame ι) :=
  ds.filter (fun f => f.vistype = "DARK")

/-- The frames whose `VISTYPE` is not `DARK` (the illuminated sub-stack:
with exactly two `VISTYPE` values present, this is the other group of the
split). -/
def illStack (ds : List (Frame ι)) : List (Frame ι) :=
  ds.filter (fun f => f.vistype ≠ "DARK")

/-- The combined result of `get_pc_mean`: dark-subtracted mean map, its
combined error and DQ maps, and the advisory warnings emitted (illuminated
stack first, as in the source's loop order). -/
structure PCResult (ι : Type) where
  data : ι → ℝ
  err : ι → ℝ
  dq : ι → ℕ
  warnings : List String

open Classical in
/-- `get_pc_mean(input_dataset, detector_params, niter)`: check the header
uniformity and the two-way `VISTYPE` split (fatal configuration errors;
the source's `vals.index('DARK')` raises a `ValueError` when no `DARK`
group exists), process the illuminated then the dark stack, and combine
them.  The source message for the failed split quotes `VISTYPE` and
`DARK`. -/
def get_pc_mean [Fintype ι] (ds : List (Frame ι)) (T_factor : ℝ) (niter : ℕ) :
    Except String (PCResult ι) :=
  -- vals = (ds.map (fun f => f.vistype)).dedup (inlined below)
  if ¬cfgUniform ds then
    .error ("All frames must have the same exposure time, commanded EM gain, and k gain.")
  else
    if ((ds.map (fun f => f.vistype)).dedup).length ≠ 2 then
      .error ("There should only be 2 datasets, and one should have VISTYPE = DARK.")
    else if "DARK" ∉ (ds.map (fun f => f.vistype)).dedup then
      .error ("ValueError: DARK is not in list")
    else
      match processStack (illStack ds) T_factor niter with
      | .error e => .error e
      | .ok ill =>
        match processStack (darkStack ds) T_factor niter with
        | .error e => .error e
        | .ok dark =>
          .ok { data := combineMeans ill.mean dark.mean,
                err := combineErrs ill.err dark.err,
                dq := combineDqs ill.dq dark.dq,
                warnings := ill.warnings ++ dark.warnings }

/-! ### Helper lemmas -/

/-- The final masked state built inside `corr_photon_count`: Newton
iteration started from the `calc_lam_approx` initial guess. -/
def corrFinal (nobs nfr : ι → ℝ) (t g : ℝ) (niter : ℕ) (i : ι) : MaskedVal :=
  lamNewtonFinal nobs nfr t g
    (fun j => calc_lam_approx (nobs j) (nfr j) t g) niter i

open Classical in
lemma corr_photon_count_eq (nobs nfr : ι → ℝ) (t g : ℝ) (niter : ℕ) :
    corr_photon_count nobs nfr t g niter =
      if ∃ i, (corrFinal nobs nfr t g niter i).d < 0 then .error negPhotonsMsg
      else .ok (fun i => if (corrFinal nobs nfr t g niter i).m then 0
        else (corrFinal nobs nfr t g niter i).d) := rfl

lemma calc_lam_approx_nobs_zero (nfr t g : ℝ) : calc_lam_approx 0 nfr t g = 0 := by
  unfold calc_lam_approx
  rw [if_pos (by simp)]
  simp

lemma newtonIterate_masked_frozen (nobs nfr t g : ℝ) (n : ℕ) (s : MaskedVal)
    (hm : s.m) : (newtonIterate nobs nfr t g n s).d = s.d ∧
      (newtonIterate nobs nfr t g n s).m := by
  induction n generalizing s with
  | zero => exact ⟨rfl, hm⟩
  | succ k ih =>
    have hstep : (newtonStep nobs nfr t g s).d = s.d ∧ (newtonStep nobs nfr t g s).m := by
      constructor
      · simp only [newtonStep]
        exact if_pos (Or.inl hm)
      · exact Or.inl hm
    obtain ⟨hd, hm'⟩ := ih (newtonStep nobs nfr t g s) hstep.2
    exact ⟨hd.trans hstep.1, hm'⟩

lemma corrFinal_nobs_zero (nobs nfr : ι → ℝ) (t g : ℝ) (niter : ℕ) (i : ι)
    (h0 : nobs i = 0) :
    (corrFinal nobs nfr t g niter i).d = 0 ∧ (corrFinal nobs nfr t g niter i).m := by
  have hlam0 : calc_lam_approx (nobs i) (nfr i) t g = 0 := by
    rw [h0]; exact calc_lam_approx_nobs_zero _ _ _
  have := newtonIterate_masked_frozen (nobs i) (nfr i) t g niter
    ⟨calc_lam_approx (nobs i) (nfr i) t g, calc_lam_approx (nobs i) (nfr i) t g = 0⟩ hlam0
  exact ⟨this.1.trans hlam0, this.2⟩

lemma stackNfr_zero_filter_nil {stack : List (Frame ι)} {i : ι}
    (h : stackNfr stack i = 0) : stack.filter (fun f => f.dq i = 0) = [] := by
  unfold stackNfr at h
  exact List.length_eq_zero.mp (by exact_mod_cast h)

lemma stackNobs_zero_of_nfr_zero {stack : List (Frame ι)} {thresh : ℝ} {i : ι}
    (h : stackNfr stack i = 0) : stackNobs stack thresh i = 0 := by
  unfold stackNobs
  rw [stackNfr_zero_filter_nil h]
  simp

/-! ### C4 — digitizer threshold law -/

/-- C4: for every non-empty counts array `c` and scalar threshold `t`, the
digitizer returns a same-length integer array whose element at each
position is 1 exactly when the count there strictly exceeds `t`, and 0
otherwise. -/
theorem digitizer_threshold_law (xs : List ℝ) (t : ℝ) (h : xs ≠ []) :
    ∃ ys, photon_count (EImage.arr xs) t = Except.ok ys ∧ ys.length = xs.length ∧
      ∀ i, i < xs.length →
        ys.getD i 0 = if t < xs.getD i 0 then 1 else 0 := by
  refine ⟨xs.map (fun x => photonCountPix x t), rfl, by simp, fun i hi => ?_⟩
  rw [List.getD_eq_getElem?_getD, List.getD_eq_getElem?_getD, List.getElem?_map,
    List.getElem?_eq_getElem hi]
  simp [photonCountPix]

/-- Witness for C4 at `c = [0, 2]`, `t = 1`. -/
theorem digitizer_threshold_law_witness :
    ∃ ys, photon_count (EImage.arr [(0 : ℝ), 2]) 1 = Except.ok ys ∧
      ys.length = [(0 : ℝ), 2].length ∧
      ∀ i, i < [(0 : ℝ), 2].length →
        ys.getD i 0 = if (1 : ℝ) < [(0 : ℝ), 2].getD i 0 then 1 else 0 :=
  digitizer_threshold_law [(0 : ℝ), 2] 1 (by simp)

/-! ### C8 — digitizer input validation -/

/-- C8 counterexample: an empty (zero-element) array does **not** raise —
the digitizer returns an empty result — and the error actually raised (on
zero-dimensional input) does not carry the description
`array must have length > 0`. -/
theorem digitizer_empty_counterexample :
    photon_count (EImage.arr ([] : List ℝ)) 0 = Except.ok [] ∧
      photon_count (EImage.scalar 0) 0 = Except.error ("e_image must have length > 0") ∧
      ("e_image must have length > 0" : String) ≠ ("array must have length > 0" : String) :=
  ⟨rfl, rfl, by decide⟩

/-- C8 amended: the digitizer raises exactly on zero-dimensional (scalar)
input, with the description `e_image must have length > 0`; every genuine
array input — the empty array included — is processed without error. -/
theorem digitizer_scalar_check (x t : ℝ) (xs : List ℝ) :
    photon_count (EImage.scalar x) t = Except.error ("e_image must have length > 0") ∧
      ∃ ys, photon_count (EImage.arr xs) t = Except.ok ys :=
  ⟨rfl, _, rfl⟩

/-! ### C3 — initial-guess two-branch policy -/

/-- C3: with `init = 1 - (nobs/nfr) * exp(t/g)`, the initial guess is
`-log init` where `init > 0` and the zeroth-order `nobs/nfr` where
`init ≤ 0`. -/
theorem initial_guess_two_branch (nobs nfr t g : ℝ) (hnfr : nfr ≠ 0) :
    (0 < 1 - nobs / nfr * Real.exp (t / g) →
      calc_lam_approx nobs nfr t g = -Real.log (1 - nobs / nfr * Real.exp (t / g))) ∧
    (1 - nobs / nfr * Real.exp (t / g) ≤ 0 →
      calc_lam_approx nobs nfr t g = nobs / nfr) := by
  constructor
  · intro h
    unfold calc_lam_approx
    exact if_pos h
  · intro h
    unfold calc_lam_approx
    exact if_neg (not_lt.mpr h)

/-- Witness for C3 at `nobs = 1`, `nfr = 2`, `t = 0`, `g = 1`. -/
theorem initial_guess_two_branch_witness :
    ((2 : ℝ) ≠ 0) ∧
      ((0 < 1 - (1 : ℝ) / 2 * Real.exp (0 / 1) →
        calc_lam_approx 1 2 0 1 = -Real.log (1 - 1 / 2 * Real.exp (0 / 1))) ∧
      (1 - (1 : ℝ) / 2 * Real.exp (0 / 1) ≤ 0 →
        calc_lam_approx 1 2 0 1 = 1 / 2)) :=
  ⟨by norm_num, initial_guess_two_branch 1 2 0 1 (by norm_num)⟩

/-! ### C5 — non-negative combined output -/

/-- C5: the combined (dark-subtracted) rate map equals the illuminated rate
minus the dark rate with negative differences replaced by 0, hence is
everywhere non-negative. -/
theorem combined_output_nonneg (m0 m1 : ι → ℝ) (i : ι) :
    combineMeans m0 m1 i = max (m0 i - m1 i) 0 ∧ 0 ≤ combineMeans m0 m1 i := by
  unfold combineMeans
  constructor
  · split
    · exact (max_eq_right (le_of_lt (by assumption))).symm
    · exact (max_eq_left (not_lt.mp (by assumption))).symm
  · split
    · exact le_refl 0
    · exact not_lt.mp (by assumption)

/-! ### C2 — negative-rate fatal error -/

/-- C2: if any pixel's underlying λ estimate after the Newton iterations is
negative, the solver raises the fatal numeric error; whenever it returns
normally, no returned λ value is negative. -/
theorem negative_rate_fatal (nobs nfr : ι → ℝ) (t g : ℝ) (niter : ℕ) :
    ((∃ i, (corrFinal nobs nfr t g niter i).d < 0) →
      corr_photon_count nobs nfr t g niter = Except.error negPhotonsMsg) ∧
    (∀ lam, corr_photon_count nobs nfr t g niter = Except.ok lam →
      ∀ i, 0 ≤ lam i) := by
  constructor
  · intro h
    rw [corr_photon_count_eq, if_pos h]
  · intro lam hok i
    rw [corr_photon_count_eq] at hok
    by_cases h : ∃ j, (corrFinal nobs nfr t g niter j).d < 0
    · rw [if_pos h] at hok
      exact absurd hok (by simp)
    · rw [if_neg h] at hok
      obtain rfl := Except.ok.inj hok
      push_neg at h
      by_cases hm : (corrFinal nobs nfr t g niter i).m
      · simp only [if_pos hm]
        exact le_refl 0
      · simp only [if_neg hm]
        exact h i

lemma corr_zero_eval :
    corr_photon_count (ι := Unit) (fun _ => 0) (fun _ => 1) 0 1 2 =
      Except.ok (fun _ => 0) := by
  have hfin : ∀ i : Unit, (corrFinal (ι := Unit) (fun _ => 0) (fun _ => 1) 0 1 2 i).d = 0 ∧
      (corrFinal (ι := Unit) (fun _ => 0) (fun _ => 1) 0 1 2 i).m :=
    fun i => corrFinal_nobs_zero _ _ _ _ _ i rfl
  rw [corr_photon_count_eq, if_neg]
  · congr 1
    funext i
    rw [if_pos (hfin i).2]
  · rintro ⟨i, hi⟩
    rw [(hfin i).1] at hi
    exact lt_irrefl 0 hi

/-- Witness for C2 at `nobs = 0`, `nfr = 1`, `t = 0`, `g = 1`, `niter = 2`
on a one-pixel image. -/
theorem negative_rate_fatal_witness :
    ∃ lam, corr_photon_count (ι := Unit) (fun _ => 0) (fun _ => 1) 0 1 2 =
      Except.ok lam ∧ ∀ i, (0 : ℝ) ≤ lam i :=
  ⟨_, corr_zero_eval, (negative_rate_fatal _ _ _ _ _).2 _ corr_zero_eval⟩

/-! ### C10 — implicit zero-count invariant -/

/-- C10: a pixel with `nobs = 0` (and `nfr > 0`, `t ≥ 0`, `g > 0`,
`niter ≥ 1`) has initial guess `-log 1 = 0`, is masked out of every Newton
update (its underlying data stays 0, so it never triggers the negative-rate
error), and `corr_photon_count` fills 0 back in for it. -/
theorem zero_count_invariant (nobs nfr : ι → ℝ) (t g : ℝ) (niter : ℕ) (i : ι)
    (h0 : nobs i = 0) (hnfr : 0 < nfr i) (ht : 0 ≤ t) (hg : 0 < g)
    (hniter : 1 ≤ niter) :
    (corrFinal nobs nfr t g niter i).d = 0 ∧ (corrFinal nobs nfr t g niter i).m ∧
      ∀ lam, corr_photon_count nobs nfr t g niter = Except.ok lam → lam i = 0 := by
  obtain ⟨hd, hm⟩ := corrFinal_nobs_zero nobs nfr t g niter i h0
  refine ⟨hd, hm, fun lam hok => ?_⟩
  rw [corr_photon_count_eq] at hok
  by_cases h : ∃ j, (corrFinal nobs nfr t g niter j).d < 0
  · rw [if_pos h] at hok
    exact absurd hok (by simp)
  · rw [if_neg h] at hok
    obtain rfl := Except.ok.inj hok
    simp only [if_pos hm]

/-- Witness for C10 at `nobs = 0`, `nfr = 1`, `t = 0`, `g = 1`, `niter = 2`
on a one-pixel image. -/
theorem zero_count_invariant_witness :
    (corrFinal (ι := Unit) (fun _ => 0) (fun _ => 1) 0 1 2 ()).d = 0 ∧
      (corrFinal (ι := Unit) (fun _ => 0) (fun _ => 1) 0 1 2 ()).m ∧
      ∀ lam, corr_photon_count (ι := Unit) (fun _ => 0) (fun _ => 1) 0 1 2 =
        Except.ok lam → lam () = 0 :=
  zero_count_invariant _ _ 0 1 2 () rfl (by norm_num) le_rfl (by norm_num)
    (by norm_num)

/-! ### Structural lemmas for the Stack Aggregator -/

lemma processStack_ok_elim [Fintype ι] {stack : List (Frame ι)} {T_factor : ℝ}
    {niter : ℕ} {so : StackOut ι}
    (h : processStack stack T_factor niter = Except.ok so) :
    ∃ mean mean_up mean_low,
      corr_photon_count (stackNobs stack (T_factor * stack.headI.rn)) (stackNfr stack)
          (T_factor * stack.headI.rn) (stackEmGain stack) niter = Except.ok mean ∧
      corr_photon_count (stackNobsUp stack (T_factor * stack.headI.rn)) (stackNfr stack)
          (T_factor * stack.headI.rn) (stackEmGain stack) niter = Except.ok mean_up ∧
      corr_photon_count (stackNobsLow stack (T_factor * stack.headI.rn)) (stackNfr stack)
          (T_factor * stack.headI.rn) (stackEmGain stack) niter = Except.ok mean_low ∧
      so = { mean := mean,
             err := fun i => max ((mean_up i + varL23 (stackEmGain stack) (mean i)
                 (T_factor * stack.headI.rn) (stackNfr stack i)) - mean i)
               (mean i - (mean_low i - varL23 (stackEmGain stack) (mean i)
                 (T_factor * stack.headI.rn) (stackNfr stack i))),
             dq := fun i => if stackNfr stack i = 0 then 1 else 0,
             warnings := stackWarnings stack T_factor } := by
  unfold processStack at h
  split at h
  · exact absurd h (by simp)
  · split at h
    · exact absurd h (by simp)
    · split at h
      · exact absurd h (by simp)
      · split at h
        · exact absurd h (by simp)
        · split at h
          · exact absurd h (by simp)
          · exact ⟨_, _, _, ‹_›, ‹_›, ‹_›, (Except.ok.inj h).symm⟩

lemma get_pc_mean_ok_elim [Fintype ι] {ds : List (Frame ι)} {T_factor : ℝ}
    {niter : ℕ} {res : PCResult ι}
    (h : get_pc_mean ds T_factor niter = Except.ok res) :
    ∃ ill dark, processStack (illStack ds) T_factor niter = Except.ok ill ∧
      processStack (darkStack ds) T_factor niter = Except.ok dark ∧
      res = { data := combineMeans ill.mean dark.mean,
              err := combineErrs ill.err dark.err,
              dq := combineDqs ill.dq dark.dq,
              warnings := ill.warnings ++ dark.warnings } := by
  unfold get_pc_mean at h
  split at h
  · exact absurd h (by simp)
  · split at h
    · exact absurd h (by simp)
    · split at h
      · exact absurd h (by simp)
      · split at h
        · exact absurd h (by simp)
        · split at h
          · exact absurd h (by simp)
          · exact ⟨_, _, ‹_›, ‹_›, (Except.ok.inj h).symm⟩

lemma corr_photon_count_error {nobs nfr : ι → ℝ} {t g : ℝ} {niter : ℕ} {e : String}
    (h : corr_photon_count nobs nfr t g niter = Except.error e) :
    e = negPhotonsMsg := by
  rw [corr_photon_count_eq] at h
  by_cases hex : ∃ i, (corrFinal nobs nfr t g niter i).d < 0
  · rw [if_pos hex] at h
    exact (Except.error.inj h).symm
  · rw [if_neg hex] at h
    exact absurd h (by simp)

lemma processStack_error [Fintype ι] {stack : List (Frame ι)} {T_factor : ℝ}
    {niter : ℕ} {e : String}
    (hthr : 0 ≤ T_factor * stack.headI.rn) (hni : 1 ≤ niter)
    (h : processStack stack T_factor niter = Except.error e) : e = negPhotonsMsg := by
  unfold processStack at h
  rw [if_neg (not_lt.mpr hthr), if_neg (not_lt.mpr hni)] at h
  split at h
  · rename_i e' hc1
    obtain rfl := Except.error.inj h
    exact corr_photon_count_error hc1
  · split at h
    · rename_i e' hc2
      obtain rfl := Except.error.inj h
      exact corr_photon_count_error hc2
    · split at h
      · rename_i e' hc3
        obtain rfl := Except.error.inj h
        exact corr_photon_count_error hc3
      · exact absurd h (by simp)

lemma get_pc_mean_error [Fintype ι] {ds : List (Frame ι)} {T_factor : ℝ}
    {niter : ℕ} {e : String}
    (hcfg : cfgUniform ds)
    (hvals : ((ds.map (fun f => f.vistype)).dedup).length = 2)
    (hdark : "DARK" ∈ (ds.map (fun f => f.vistype)).dedup)
    (hthrI : 0 ≤ T_factor * (illStack ds).headI.rn)
    (hthrD : 0 ≤ T_factor * (darkStack ds).headI.rn)
    (hni : 1 ≤ niter)
    (h : get_pc_mean ds T_factor niter = Except.error e) : e = negPhotonsMsg := by
  unfold get_pc_mean at h
  rw [if_neg (not_not_intro hcfg), if_neg (not_not_intro hvals),
    if_neg (not_not_intro hdark)] at h
  split at h
  · rename_i e' hIll
    obtain rfl := Except.error.inj h
    exact processStack_error hthrI hni hIll
  · split at h
    · rename_i e' hDark
      obtain rfl := Except.error.inj h
      exact processStack_error hthrD hni hDark
    · exact absurd h (by simp)

lemma stack_zero_pixel [Fintype ι] {stack : List (Frame ι)} {T_factor : ℝ}
    {niter : ℕ} {so : StackOut ι}
    (h : processStack stack T_factor niter = Except.ok so)
    {i : ι} (hnfr : stackNfr stack i = 0) : so.mean i = 0 ∧ so.dq i = 1 := by
  obtain ⟨mean, mean_up, mean_low, hc1, hc2, hc3, rfl⟩ := processStack_ok_elim h
  constructor
  · rw [corr_photon_count_eq] at hc1
    have hnobs : stackNobs stack (T_factor * stack.headI.rn) i = 0 :=
      stackNobs_zero_of_nfr_zero hnfr
    by_cases hex : ∃ j, (corrFinal (stackNobs stack (T_factor * stack.headI.rn))
        (stackNfr stack) (T_factor * stack.headI.rn) (stackEmGain stack) niter j).d < 0
    · rw [if_pos hex] at hc1
      exact absurd hc1 (by simp)
    · rw [if_neg hex] at hc1
      obtain rfl := Except.ok.inj hc1
      have hmz := corrFinal_nobs_zero (stackNobs stack (T_factor * stack.headI.rn))
        (stackNfr stack) (T_factor * stack.headI.rn) (stackEmGain stack) niter i hnobs
      exact if_pos hmz.2
  · exact if_pos hnfr

/-! ### C1 — zero-frame degeneracy -/

/-- C1: a pixel with `nfr = 0` in a stack has co-added count 0, is masked
through the whole Newton iteration with underlying data 0 (so it raises no
error), its per-stack corrected rate is exactly 0 and its per-stack DQ flag
is 1; with `nfr = 0` in both stacks the combined rate is 0 and the combined
DQ flag is 1. -/
theorem zero_frame_degeneracy [Fintype ι] (T_factor : ℝ) (niter : ℕ) :
    (∀ (stack : List (Frame ι)) (thresh g : ℝ) (i : ι), stackNfr stack i = 0 →
      (corrFinal (stackNobs stack thresh) (stackNfr stack) thresh g niter i).d = 0 ∧
      (corrFinal (stackNobs stack thresh) (stackNfr stack) thresh g niter i).m) ∧
    (∀ (stack : List (Frame ι)) (so : StackOut ι),
      processStack stack T_factor niter = Except.ok so →
      ∀ i, stackNfr stack i = 0 → so.mean i = 0 ∧ so.dq i = 1) ∧
    (∀ (ds : List (Frame ι)) (res : PCResult ι),
      get_pc_mean ds T_factor niter = Except.ok res →
      ∀ i, stackNfr (illStack ds) i = 0 → stackNfr (darkStack ds) i = 0 →
        res.data i = 0 ∧ res.dq i = 1) := by
  refine ⟨?_, ?_, ?_⟩
  · intro stack thresh g i h
    exact corrFinal_nobs_zero _ _ _ _ _ i (stackNobs_zero_of_nfr_zero h)
  · intro stack so h i hn
    exact stack_zero_pixel h hn
  · intro ds res h i hnI hnD
    obtain ⟨ill, dark, hIll, hDark, rfl⟩ := get_pc_mean_ok_elim h
    obtain ⟨hI0, hIdq⟩ := stack_zero_pixel hIll hnI
    obtain ⟨hD0, hDdq⟩ := stack_zero_pixel hDark hnD
    constructor
    · show combineMeans ill.mean dark.mean i = 0
      unfold combineMeans
      rw [hI0, hD0]
      norm_num
    · show combineDqs ill.dq dark.dq i = 1
      unfold combineDqs
      rw [hIdq, hDdq]
      rfl

/-! ### C7 — uncertainty combination -/

/-- C7: for each stack the per-pixel uncertainty equals
`max(λ_up − λ, λ − λ_low)` plus the `varL23` term computed on the nominal
`λ`, and the combined uncertainty map is the root-sum-square of the two
stacks' uncertainty maps. -/
theorem uncertainty_combination [Fintype ι] (T_factor : ℝ) (niter : ℕ) :
    (∀ (stack : List (Frame ι)) (so : StackOut ι),
      processStack stack T_factor niter = Except.ok so →
      ∃ mean mean_up mean_low,
        corr_photon_count (stackNobs stack (T_factor * stack.headI.rn)) (stackNfr stack)
            (T_factor * stack.headI.rn) (stackEmGain stack) niter = Except.ok mean ∧
        corr_photon_count (stackNobsUp stack (T_factor * stack.headI.rn)) (stackNfr stack)
            (T_factor * stack.headI.rn) (stackEmGain stack) niter = Except.ok mean_up ∧
        corr_photon_count (stackNobsLow stack (T_factor * stack.headI.rn)) (stackNfr stack)
            (T_factor * stack.headI.rn) (stackEmGain stack) niter = Except.ok mean_low ∧
        ∀ i, so.err i = max (mean_up i - mean i) (mean i - mean_low i) +
          varL23 (stackEmGain stack) (mean i) (T_factor * stack.headI.rn)
            (stackNfr stack i)) ∧
    (∀ (ds : List (Frame ι)) (res : PCResult ι),
      get_pc_mean ds T_factor niter = Except.ok res →
      ∃ ill dark, processStack (illStack ds) T_factor niter = Except.ok ill ∧
        processStack (darkStack ds) T_factor niter = Except.ok dark ∧
        ∀ i, res.err i = Real.sqrt (ill.err i ^ 2 + dark.err i ^ 2)) := by
  constructor
  · intro stack so h
    obtain ⟨mean, mean_up, mean_low, h1, h2, h3, rfl⟩ := processStack_ok_elim h
    refine ⟨mean, mean_up, mean_low, h1, h2, h3, fun i => ?_⟩
    show max ((mean_up i + _) - mean i) (mean i - (mean_low i - _)) = _
    rw [show (mean_up i + varL23 (stackEmGain stack) (mean i)
          (T_factor * stack.headI.rn) (stackNfr stack i)) - mean i =
        (mean_up i - mean i) + varL23 (stackEmGain stack) (mean i)
          (T_factor * stack.headI.rn) (stackNfr stack i) by ring,
      show mean i - (mean_low i - varL23 (stackEmGain stack) (mean i)
          (T_factor * stack.headI.rn) (stackNfr stack i)) =
        (mean i - mean_low i) + varL23 (stackEmGain stack) (mean i)
          (T_factor * stack.headI.rn) (stackNfr stack i) by ring,
      max_add_add_right]
  · intro ds res h
    obtain ⟨ill, dark, h1, h2, rfl⟩ := get_pc_mean_ok_elim h
    exact ⟨ill, dark, h1, h2, fun i => rfl⟩

/-! ### C9 — advisory warnings never abort -/

/-- C9: once the fatal configuration checks pass, the only error
`get_pc_mean` can raise is the negative-rate numeric error — each of the
four advisory conditions merely contributes its warning to the emitted
warning list (threshold at or above the gain; mean counts per pixel above
0.1; non-positive read noise; threshold below four read noises). -/
theorem advisory_never_aborts [Fintype ι] (ds : List (Frame ι)) (T_factor : ℝ)
    (niter : ℕ)
    (hcfg : cfgUniform ds)
    (hvals : ((ds.map (fun f => f.vistype)).dedup).length = 2)
    (hdark : "DARK" ∈ (ds.map (fun f => f.vistype)).dedup)
    (hthrI : 0 ≤ T_factor * (illStack ds).headI.rn)
    (hthrD : 0 ≤ T_factor * (darkStack ds).headI.rn)
    (hni : 1 ≤ niter) :
    (∀ e, get_pc_mean ds T_factor niter = Except.error e → e = negPhotonsMsg) ∧
    (∀ res, get_pc_mean ds T_factor niter = Except.ok res →
      res.warnings = stackWarnings (illStack ds) T_factor ++
        stackWarnings (darkStack ds) T_factor) ∧
    (∀ stack : List (Frame ι),
      (stackEmGain stack ≤ T_factor * stack.headI.rn →
        warnThreshGain ∈ stackWarnings stack T_factor) ∧
      (0.1 < stackAverage stack → warnAvg ∈ stackWarnings stack T_factor) ∧
      (stack.headI.rn ≤ 0 → warnReadNoise ∈ stackWarnings stack T_factor) ∧
      (T_factor * stack.headI.rn < 4 * stack.headI.rn →
        warnNoiseFloor ∈ stackWarnings stack T_factor)) := by
  refine ⟨fun e he => get_pc_mean_error hcfg hvals hdark hthrI hthrD hni he,
    fun res hres => ?_, fun stack => ⟨fun h => ?_, fun h => ?_, fun h => ?_, fun h => ?_⟩⟩
  · obtain ⟨ill, dark, hIll, hDark, rfl⟩ := get_pc_mean_ok_elim hres
    obtain ⟨_, _, _, _, _, _, rfl⟩ := processStack_ok_elim hIll
    obtain ⟨_, _, _, _, _, _, rfl⟩ := processStack_ok_elim hDark
    rfl
  · simp [stackWarnings, h]
  · simp [stackWarnings, h]
  · simp [stackWarnings, h]
  · simp [stackWarnings, h]

/-! ### C6 — variance monotonicity in λ

The claim fails as stated: `eThresh` tends to 1 as `λ` grows, so the
binomial factor `N * eThresh * (1 - eThresh)` — and with it the whole
variance — eventually decreases.  At `T = 0` the variance reduces to
`E (1-E) (1+E+E²)² / N` with `E = (λ³+3λ²+6λ)/(λ³+3λ²+6λ+6)`, which is
increasing only while `E` is small; it holds on the low-flux interval
`0 < λ ≤ 1/2`. -/

/-- The value of the local `eThresh` of `varL23` at `T = 0` (the EM gain
cancels). -/
def eThreshT0 (L : ℝ) : ℝ :=
  (L ^ 3 + 3 * L ^ 2 + 6 * L) / (L ^ 3 + 3 * L ^ 2 + 6 * L + 6)

lemma eThreshT0_den_pos (L : ℝ) (hL : 0 ≤ L) :
    0 < L ^ 3 + 3 * L ^ 2 + 6 * L + 6 := by
  nlinarith [pow_nonneg hL 3, sq_nonneg L]

lemma eThreshT0_nonneg (L : ℝ) (hL : 0 ≤ L) : 0 ≤ eThreshT0 L := by
  unfold eThreshT0
  apply div_nonneg _ (le_of_lt (eThreshT0_den_pos L hL))
  nlinarith [pow_nonneg hL 3, sq_nonneg L]

lemma eThreshT0_le_one (L : ℝ) (hL : 0 ≤ L) : eThreshT0 L ≤ 1 := by
  unfold eThreshT0
  rw [div_le_one (eThreshT0_den_pos L hL)]
  norm_num

lemma eThresh_T0_eq (g L : ℝ) (hg : g ≠ 0) (hL : 0 ≤ L) :
    6 / (6 + L * (6 + L * (3 + L))) * (Real.exp (-0 / g) * L *
      (2 * g ^ 2 * (6 + L * (3 + L)) + 2 * g * L * (3 + L) * 0 + L ^ 2 * 0 ^ 2)) /
      (12 * g ^ 2) = eThreshT0 L := by
  have hden : (6 : ℝ) + L * (6 + L * (3 + L)) ≠ 0 := by
    have := eThreshT0_den_pos L hL
    intro hc
    nlinarith
  simp only [neg_zero, zero_div, Real.exp_zero, mul_zero, zero_mul, add_zero, ne_eq]
  unfold eThreshT0
  have hden' : L ^ 3 + 3 * L ^ 2 + 6 * L + 6 ≠ 0 := ne_of_gt (eThreshT0_den_pos L hL)
  field_simp
  ring

lemma varL23_T0 (g N L : ℝ) (hg : g ≠ 0) (hN : 0 < N) (hL : 0 ≤ L) :
    varL23 g L 0 N = eThreshT0 L * (1 - eThreshT0 L) *
      (1 + eThreshT0 L + eThreshT0 L ^ 2) ^ 2 / N := by
  have hE0 := eThreshT0_nonneg L hL
  have hE1 := eThreshT0_le_one L hL
  simp only [varL23]
  rw [eThresh_T0_eq g L hg hL]
  rw [Real.sq_sqrt (mul_nonneg (mul_nonneg hN.le hE0) (sub_nonneg.mpr hE1))]
  simp only [neg_zero, zero_div, Real.exp_zero, mul_zero, zero_mul, add_zero, sub_zero]
  have hN' : N ≠ 0 := ne_of_gt hN
  field_simp
  ring

lemma eThreshT0_mono {L1 L2 : ℝ} (h1 : 0 ≤ L1) (h12 : L1 ≤ L2) :
    eThreshT0 L1 ≤ eThreshT0 L2 := by
  have h2 : (0 : ℝ) ≤ L2 := le_trans h1 h12
  unfold eThreshT0
  rw [div_le_div_iff (eThreshT0_den_pos L1 h1) (eThreshT0_den_pos L2 h2)]
  nlinarith [mul_nonneg (sub_nonneg.mpr h12)
    (by nlinarith [sq_nonneg (L1 + L2), sq_nonneg L1, sq_nonneg L2] :
      (0 : ℝ) ≤ L1 ^ 2 + L1 * L2 + L2 ^ 2 + 3 * (L1 + L2) + 6)]

lemma varFactor_mono {E1 E2 : ℝ} (h0 : 0 ≤ E1) (h12 : E1 ≤ E2) (h2 : E2 ≤ 31 / 79) :
    E1 * (1 - E1) * (1 + E1 + E1 ^ 2) ^ 2 ≤ E2 * (1 - E2) * (1 + E2 + E2 ^ 2) ^ 2 := by
  have h0' : (0 : ℝ) ≤ E2 := le_trans h0 h12
  have h1c : E1 ≤ 31 / 79 := le_trans h12 h2
  have hG : 0 ≤ 1 + (E1 + E2) + (E1 ^ 2 + E1 * E2 + E2 ^ 2)
      - (E1 ^ 3 + E1 ^ 2 * E2 + E1 * E2 ^ 2 + E2 ^ 3)
      - (E1 ^ 4 + E1 ^ 3 * E2 + E1 ^ 2 * E2 ^ 2 + E1 * E2 ^ 3 + E2 ^ 4)
      - (E1 ^ 5 + E1 ^ 4 * E2 + E1 ^ 3 * E2 ^ 2 + E1 ^ 2 * E2 ^ 3 + E1 * E2 ^ 4 + E2 ^ 5) := by
    have c1 : E1 ^ 2 ≤ (31 / 79) ^ 2 := by nlinarith
    have c2 : E2 ^ 2 ≤ (31 / 79) ^ 2 := by nlinarith
    have m12 : E1 * E2 ≤ (31 / 79) ^ 2 := by nlinarith
    nlinarith [mul_nonneg h0 h0', mul_nonneg (mul_nonneg h0 h0') (mul_nonneg h0 h0'),
      mul_le_mul_of_nonneg_left c2 h0', mul_le_mul_of_nonneg_left c1 h0,
      mul_le_mul_of_nonneg_left m12 h0, mul_le_mul_of_nonneg_left m12 h0',
      mul_nonneg h0 (mul_nonneg h0' h0'), sq_nonneg (E1 - E2), sq_nonneg (E1 + E2),
      mul_le_mul_of_nonneg_left c2 (mul_nonneg h0' h0'),
      mul_le_mul_of_nonneg_left c1 (mul_nonneg h0 h0),
      mul_le_mul_of_nonneg_left m12 (mul_nonneg h0 h0'),
      mul_le_mul_of_nonneg_left c2 (mul_nonneg h0 h0'),
      mul_le_mul_of_nonneg_left c1 (mul_nonneg h0 h0')]
  nlinarith [mul_nonneg (sub_nonneg.mpr h12) hG]

/-- C6 counterexample: with `g = 1`, `t = 0`, `N = 1` (all in the claim's
range) and `0 < 2 ≤ 5`, the variance model output strictly *decreases* from
`λ = 2` to `λ = 5`, so it is not monotonically non-decreasing in `λ` above
`λ = 0`. -/
theorem variance_monotonicity_counterexample :
    (0 : ℝ) < 2 ∧ (2 : ℝ) ≤ 5 ∧ varL23 1 5 0 1 < varL23 1 2 0 1 := by
  refine ⟨by norm_num, by norm_num, ?_⟩
  have h2 : varL23 1 2 0 1 = 48 / 361 * (921 / 361) ^ 2 := by
    simp only [varL23, mul_zero, neg_zero, zero_div, Real.exp_zero]
    rw [Real.sq_sqrt (by norm_num)]
    norm_num
  have h5 : varL23 1 5 0 1 = 345 / 13924 * (40719 / 13924) ^ 2 := by
    simp only [varL23, mul_zero, neg_zero, zero_div, Real.exp_zero]
    rw [Real.sq_sqrt (by norm_num)]
    norm_num
  rw [h2, h5]
  norm_num

/-- C6 amended: the variance model output is monotonically non-decreasing
in `λ` only in the low-flux regime — at threshold `t = 0`, for every
`g ≠ 0` and `N > 0` it is non-decreasing on `0 < λ ≤ 1/2`; beyond the
low-flux regime it eventually decreases (see the counterexample). -/
theorem variance_monotone_low_flux (g N L1 L2 : ℝ) (hg : g ≠ 0) (hN : 0 < N)
    (h1 : 0 < L1) (h12 : L1 ≤ L2) (h2 : L2 ≤ 1 / 2) :
    varL23 g L1 0 N ≤ varL23 g L2 0 N := by
  have hL2 : (0 : ℝ) ≤ L2 := le_trans h1.le h12
  rw [varL23_T0 g N L1 hg hN h1.le, varL23_T0 g N L2 hg hN hL2]
  apply (div_le_div_right hN).mpr
  have hEhalf : eThreshT0 L2 ≤ 31 / 79 := by
    have := eThreshT0_mono hL2 h2
    have hhalf : eThreshT0 (1 / 2) = 31 / 79 := by
      unfold eThreshT0
      norm_num
    rw [hhalf] at this
    exact this
  exact varFactor_mono (eThreshT0_nonneg L1 h1.le) (eThreshT0_mono h1.le h12) hEhalf

/-- Witness for the amended C6 at `g = 1`, `N = 1`, `λ₁ = 1/4`,
`λ₂ = 1/2`. -/
theorem variance_monotone_low_flux_witness :
    varL23 1 (1 / 4) 0 1 ≤ varL23 1 (1 / 2) 0 1 :=
  variance_monotone_low_flux 1 1 (1 / 4) (1 / 2) (by norm_num) (by norm_num)
    (by norm_num) (by norm_num) (by norm_num)

/-! ### Concrete dataset for the Stack Aggregator witnesses -/

lemma varL23_lam_zero (g T N : ℝ) : varL23 g 0 T N = 0 := by
  simp [varL23]

lemma stackNobsUp_zero_of_nfr_zero {stack : List (Frame ι)} {thresh : ℝ} {i : ι}
    (h : stackNfr stack i = 0) : stackNobsUp stack thresh i = 0 := by
  unfold stackNobsUp
  rw [stackNfr_zero_filter_nil h]
  simp

lemma stackNobsLow_zero_of_nfr_zero {stack : List (Frame ι)} {thresh : ℝ} {i : ι}
    (h : stackNfr stack i = 0) : stackNobsLow stack thresh i = 0 := by
  unfold stackNobsLow
  rw [stackNfr_zero_filter_nil h]
  simp

lemma corr_all_zero (nobs nfr : ι → ℝ) (t g : ℝ) (n : ℕ) (h0 : ∀ i, nobs i = 0) :
    corr_photon_count nobs nfr t g n = Except.ok (fun _ => 0) := by
  rw [corr_photon_count_eq, if_neg]
  · congr 1
    funext i
    rw [if_pos (corrFinal_nobs_zero _ _ _ _ _ i (h0 i)).2]
  · rintro ⟨i, hi⟩
    rw [(corrFinal_nobs_zero _ _ _ _ _ i (h0 i)).1] at hi
    exact lt_irrefl 0 hi

lemma processStack_allmasked [Fintype ι] (stack : List (Frame ι)) (T_factor : ℝ)
    (n : ℕ) (hthr : ¬ (T_factor * stack.headI.rn < 0)) (hni : ¬ (n < 1))
    (hnfr : ∀ i : ι, stackNfr stack i = 0) :
    processStack stack T_factor n = Except.ok
      { mean := fun _ => 0, err := fun _ => 0, dq := fun _ => 1,
        warnings := stackWarnings stack T_factor } := by
  unfold processStack
  rw [if_neg hthr, if_neg hni]
  rw [corr_all_zero _ _ _ _ _ (fun i => stackNobs_zero_of_nfr_zero (hnfr i)),
    corr_all_zero _ _ _ _ _ (fun i => stackNobsUp_zero_of_nfr_zero (hnfr i)),
    corr_all_zero _ _ _ _ _ (fun i => stackNobsLow_zero_of_nfr_zero (hnfr i))]
  simp only [hnfr, varL23_lam_zero]
  norm_num

/-- A frame of the illuminated part of the witness dataset: every pixel
flagged bad, read noise 0, measured EM gain 1, the remaining headers 1. -/
def frameSci : Frame Unit :=
  { data := fun _ => 0, err := fun _ => 0, dq := fun _ => 1,
    exptime := 1, cmdgain := 1, kgain := 1, rn := 0,
    emgain_m := some 1, emgain_a := none, vistype := "SCI" }

/-- The dark frame of the witness dataset (same as `frameSci` apart from
`VISTYPE`). -/
def frameDark : Frame Unit :=
  { frameSci with vistype := "DARK" }

/-- The witness dataset: one illuminated and one dark frame over a single
pixel. -/
def dsW : List (Frame Unit) := [frameSci, frameDark]

lemma cfgUniform_dsW : cfgUniform dsW := by
  intro f hf f' hf'
  simp only [dsW, List.mem_cons, List.not_mem_nil, or_false] at hf hf'
  rcases hf with rfl | rfl <;> rcases hf' with rfl | rfl <;>
    simp [frameSci, frameDark]

lemma vals_dsW : ((dsW.map (fun f => f.vistype)).dedup).length = 2 := rfl

lemma dark_mem_dsW : "DARK" ∈ (dsW.map (fun f => f.vistype)).dedup := by decide

lemma illStack_dsW : illStack dsW = [frameSci] := rfl

lemma darkStack_dsW : darkStack dsW = [frameDark] := rfl

lemma stackNfr_frameSci : ∀ i : Unit, stackNfr [frameSci] i = 0 := by
  intro i
  simp [stackNfr, frameSci]

lemma stackNfr_frameDark : ∀ i : Unit, stackNfr [frameDark] i = 0 := by
  intro i
  simp [stackNfr, frameDark, frameSci]

lemma processStack_sci : processStack [frameSci] 5 2 = Except.ok
    { mean := fun _ => 0, err := fun _ => 0, dq := fun _ => 1,
      warnings := stackWarnings [frameSci] 5 } :=
  processStack_allmasked _ _ _ (by norm_num [frameSci]) (by norm_num)
    stackNfr_frameSci

lemma processStack_dark : processStack [frameDark] 5 2 = Except.ok
    { mean := fun _ => 0, err := fun _ => 0, dq := fun _ => 1,
      warnings := stackWarnings [frameDark] 5 } :=
  processStack_allmasked _ _ _ (by norm_num [frameDark, frameSci]) (by norm_num)
    stackNfr_frameDark

lemma get_pc_mean_dsW : get_pc_mean dsW 5 2 = Except.ok
    { data := fun _ => 0, err := fun _ => 0, dq := fun _ => 1,
      warnings := stackWarnings [frameSci] 5 ++ stackWarnings [frameDark] 5 } := by
  unfold get_pc_mean
  rw [if_neg (not_not_intro cfgUniform_dsW), if_neg (not_not_intro vals_dsW),
    if_neg (not_not_intro dark_mem_dsW), illStack_dsW, darkStack_dsW,
    processStack_sci, processStack_dark]
  norm_num
  refine ⟨funext fun i => ?_, funext fun i => ?_, funext fun i => ?_⟩
  · unfold combineMeans
    norm_num
  · unfold combineErrs
    norm_num
  · unfold combineDqs
    show (1 : ℕ) ||| 1 = 1
    decide

/-- Witness for C1: in `dsW` both stacks have `nfr = 0` at the pixel, the
pipeline completes, and the combined rate is 0 with combined DQ flag 1. -/
theorem zero_frame_degeneracy_witness :
    stackNfr (illStack dsW) () = 0 ∧ stackNfr (darkStack dsW) () = 0 ∧
    ∃ res, get_pc_mean dsW 5 2 = Except.ok res ∧ res.data () = 0 ∧ res.dq () = 1 := by
  have hI : stackNfr (illStack dsW) () = 0 := by
    rw [illStack_dsW]
    exact stackNfr_frameSci ()
  have hD : stackNfr (darkStack dsW) () = 0 := by
    rw [darkStack_dsW]
    exact stackNfr_frameDark ()
  exact ⟨hI, hD, _, get_pc_mean_dsW,
    (zero_frame_degeneracy 5 2).2.2 dsW _ get_pc_mean_dsW () hI hD⟩

/-- Witness for C7 on the concrete dataset `dsW`. -/
theorem uncertainty_combination_witness :
    ∃ res, get_pc_mean dsW 5 2 = Except.ok res ∧
      ∃ ill dark, processStack (illStack dsW) 5 2 = Except.ok ill ∧
        processStack (darkStack dsW) 5 2 = Except.ok dark ∧
        ∀ i, res.err i = Real.sqrt (ill.err i ^ 2 + dark.err i ^ 2) :=
  ⟨_, get_pc_mean_dsW, (uncertainty_combination 5 2).2 dsW _ get_pc_mean_dsW⟩

/-- Witness for C9: `dsW` passes every fatal configuration check, has
non-positive read noise (an advisory condition), and is processed to
completion; any error after the fatal checks could only be the
negative-rate numeric one. -/
theorem advisory_never_aborts_witness :
    cfgUniform dsW ∧ ((dsW.map (fun f => f.vistype)).dedup).length = 2 ∧
    "DARK" ∈ (dsW.map (fun f => f.vistype)).dedup ∧
    0 ≤ (5 : ℝ) * (illStack dsW).headI.rn ∧
    0 ≤ (5 : ℝ) * (darkStack dsW).headI.rn ∧
    (1 : ℕ) ≤ 2 ∧
    (darkStack dsW).headI.rn ≤ 0 ∧
    (∀ e, get_pc_mean dsW 5 2 = Except.error e → e = negPhotonsMsg) ∧
    ∃ res, get_pc_mean dsW 5 2 = Except.ok res := by
  have hI : 0 ≤ (5 : ℝ) * (illStack dsW).headI.rn := by
    rw [illStack_dsW]
    norm_num [frameSci]
  have hD : 0 ≤ (5 : ℝ) * (darkStack dsW).headI.rn := by
    rw [darkStack_dsW]
    norm_num [frameDark, frameSci]
  refine ⟨cfgUniform_dsW, vals_dsW, dark_mem_dsW, hI, hD, by norm_num, ?_, ?_,
    _, get_pc_mean_dsW⟩
  · rw [darkStack_dsW]
    norm_num [frameDark, frameSci]
  · exact (advisory_never_aborts dsW 5 2 cfgUniform_dsW vals_dsW dark_mem_dsW
      hI hD (by norm_num)).1

end Corgidrp
